import Mathlib

/-!
A shallow embedding of the Tanks lobby server (Go): the shared message
protocol (`protocol.go`), the `Client` session (`client.go`), the `Hub`
registry (`hub.go`) and the `Lobby` room (`lobby.go`), together with
theorems about the room/registry operations.

Go maps are modelled as association lists whose list order stands for the
map's iteration order (Go does not fix an iteration order; a list models one
admissible order per run).  Pointers to shared `Client`/`Lobby` objects are
modelled by ids resolved through the `Hub`; a `Lobby` method that mutates the
hub (`l.hub.removeLobby`) takes the hub explicitly and returns the new one.
Message sends are modelled as emitted events `(recipient client id, envelope)`;
the per-client bounded outbound queue itself is `sendEnvelope`.
-/

/-- MessageType from protocol.go: a string naming the kind of message. -/
abbrev MessageType := String

def MsgRequestLobbies : MessageType := "request_lobbies"

def MsgCreateLobby : MessageType := "create_lobby"

def MsgJoinLobby : MessageType := "join_lobby"

def MsgLeaveLobby : MessageType := "leave_lobby"

def MsgSetReady : MessageType := "set_ready"

def MsgStartGame : MessageType := "start_game"

def MsgLobbyList : MessageType := "lobby_list"

def MsgLobbyState : MessageType := "lobby_state"

def MsgPlayerJoined : MessageType := "player_joined"

def MsgPlayerLeft : MessageType := "player_left"

def MsgError : MessageType := "error"

def MsgGameStarting : MessageType := "game_starting"

/-- PlayerInfo from protocol.go. -/
structure PlayerInfo where
  id : String
  name : String
  ready : Bool
  isHost : Bool
  deriving DecidableEq, Repr

/-- LobbyInfo from protocol.go. -/
structure LobbyInfo where
  id : String
  name : String
  playerCount : Nat
  maxPlayers : Nat
  inGame : Bool
  deriving DecidableEq, Repr

/-- The typed payloads of protocol.go, as one sum (Go uses `any` plus
per-kind structs; the variants below are exactly those structs). -/
inductive Payload where
  | emptyP
  | createLobbyP (name : String)
  | joinLobbyP (lobbyID : String)
  | setReadyP (ready : Bool)
  | lobbyListP (lobbies : List LobbyInfo)
  | lobbyStateP (lobbyID lobbyName : String) (players : List PlayerInfo) (youAreHost : Bool)
  | playerJoinedP (player : PlayerInfo)
  | playerLeftP (playerID : String)
  | errorP (message : String)
  | gameStartingP (yourTankID : String)
  deriving DecidableEq, Repr

/-- Envelope from protocol.go. -/
structure Envelope where
  type : MessageType
  payload : Payload
  deriving DecidableEq, Repr

/-- A message send: the id of the receiving client and the envelope handed
to its `sendEnvelope`. -/
abbrev SendEvent := String × Envelope

/-- Client from client.go: id, display name, the buffered outbound queue
(chan []byte, capacity 64; envelopes stand for their serializations), and the
current lobby (a pointer in Go, an id here; `none` while in the menu). -/
structure Client where
  id : String
  name : String
  send : List Envelope
  lobby : Option String
  deriving DecidableEq, Repr

/-- Lookup in a Go map modelled as an association list. -/
def mapLookup {α : Type} (m : List (String × α)) (k : String) : Option α :=
  match m with
  | [] => none
  | p :: rest => if p.1 = k then some p.2 else mapLookup rest k

/-- Go map assignment `m[k] = v`: replace the binding if present, else append
(the new key comes last in iteration order of this run). -/
def mapInsert {α : Type} (m : List (String × α)) (k : String) (v : α) : List (String × α) :=
  match m with
  | [] => [(k, v)]
  | p :: rest => if p.1 = k then (k, v) :: rest else p :: mapInsert rest k v

/-- Go `delete(m, k)`. -/
def mapErase {α : Type} (m : List (String × α)) (k : String) : List (String × α) :=
  match m with
  | [] => []
  | p :: rest => if p.1 = k then mapErase rest k else p :: mapErase rest k

/-- The key list of a modelled Go map. -/
def mapKeys {α : Type} (m : List (String × α)) : List String :=
  m.map Prod.fst

def maxPlayersPerLobby : Nat := 4

/-- GameState from lobby.go: a string-typed enum. -/
abbrev GameState := String

def waiting : GameState := "waiting"

def countDown : GameState := "starting game"

def inGamePlaying : GameState := "playing"

/-- Lobby from lobby.go.  The struct declares `state GameState`; the methods
`addPlayer` and `Info` read `l.inGame`, a field the struct does not declare
(the file does not compile as written), and `LobbyInfo.InGame` is `bool`, so
`inGame` is modelled as a Bool field alongside `state`; neither field is ever
assigned by the source, so both keep their Go zero values (`""` and `false`).
The `hub` back-reference is passed explicitly to the methods that use it. -/
structure Lobby where
  id : String
  name : String
  hostID : String
  state : GameState
  inGame : Bool
  players : List (String × Client)
  ready : List (String × Bool)
  deriving DecidableEq, Repr

/-- Hub from hub.go: the two directories. -/
structure Hub where
  clients : List (String × Client)
  lobbies : List (String × Lobby)
  deriving DecidableEq, Repr

def emptyHub : Hub := { clients := [], lobbies := [] }

/-- NewLobby from lobby.go: the host is the sole member, not ready; the
`state` and `inGame` fields are not assigned (Go zero values). -/
def NewLobby (id name : String) (host : Client) : Lobby :=
  { id := id
    name := name
    hostID := host.id
    state := ""
    inGame := false
    players := [(host.id, host)]
    ready := [(host.id, false)] }

/-- Hub.getLobby: the lobby, or `none` (Go `nil`) when absent. -/
def getLobby (h : Hub) (id : String) : Option Lobby :=
  mapLookup h.lobbies id

/-- Hub.removeLobby. -/
def removeLobby (h : Hub) (id : String) : Hub :=
  { h with lobbies := mapErase h.lobbies id }

/-- Hub.createLobby.  Go draws the fresh id from `generateID()`; the id is a
parameter here. -/
def createLobby (h : Hub) (freshId name : String) (host : Client) : Hub × Lobby :=
  let lobby := NewLobby freshId name host
  ({ h with lobbies := mapInsert h.lobbies freshId lobby }, lobby)

/-- Lobby.Info from lobby.go (reads the undeclared `l.inGame`, see `Lobby`). -/
def Info (l : Lobby) : LobbyInfo :=
  { id := l.id
    name := l.name
    playerCount := l.players.length
    maxPlayers := maxPlayersPerLobby
    inGame := l.inGame }

/-- Lobby.broadcastUnlocked: hand the envelope to every member client. -/
def broadcastUnlocked (l : Lobby) (env : Envelope) : List SendEvent :=
  l.players.map (fun p => (p.2.id, env))

/-- Lobby.sendStateToClientUnlocked: the full lobby_state snapshot for one
client. -/
def sendStateToClientUnlocked (l : Lobby) (c : Client) : SendEvent :=
  (c.id,
    { type := MsgLobbyState
      payload := Payload.lobbyStateP l.id l.name
        (l.players.map (fun p =>
          { id := p.1
            name := p.2.name
            ready := (mapLookup l.ready p.1).getD false
            isHost := p.1 == l.hostID }))
        (c.id == l.hostID) })

/-- Lobby.sendStateToAllUnlocked. -/
def sendStateToAllUnlocked (l : Lobby) : List SendEvent :=
  l.players.map (fun p => sendStateToClientUnlocked l p.2)

/-- The player_joined envelope addPlayer broadcasts for a joining client. -/
def playerJoinedEnvelope (c : Client) : Envelope :=
  { type := MsgPlayerJoined
    payload := Payload.playerJoinedP
      { id := c.id, name := c.name, ready := false, isHost := false } }

/-- Lobby.addPlayer from lobby.go: guards (the undeclared `l.inGame`, the
capacity bound, duplicate membership) then insertion into both maps, a
player_joined broadcast over the updated member map, and a lobby_state
snapshot to the joining client. -/
def addPlayer (l : Lobby) (c : Client) : Except String (Lobby × List SendEvent) :=
  if l.inGame then
    Except.error "game already in progress"
  else if maxPlayersPerLobby ≤ l.players.length then
    Except.error "lobby is full"
  else if (mapLookup l.players c.id).isSome then
    Except.error "already in this lobby"
  else
    let l2 : Lobby := { l with
      players := mapInsert l.players c.id c
      ready := mapInsert l.ready c.id false }
    Except.ok (l2, broadcastUnlocked l2 (playerJoinedEnvelope c)
      ++ [sendStateToClientUnlocked l2 c])

/-- The outcome of Lobby.removePlayer: the hub after any `removeLobby` call,
the lobby, and the emitted sends. -/
structure RemoveResult where
  hub : Hub
  lobby : Lobby
  events : List SendEvent
  deriving DecidableEq, Repr

/-- Lobby.removePlayer from lobby.go: no-op when absent; delete from both
maps; when the room empties, `hub.removeLobby` and stop; otherwise reassign
the host to the first remaining member in iteration order when the host left,
then broadcast player_left and a lobby_state snapshot to everyone. -/
def removePlayer (h : Hub) (l : Lobby) (c : Client) : RemoveResult :=
  if (mapLookup l.players c.id).isNone then
    { hub := h, lobby := l, events := [] }
  else
    let l1 : Lobby := { l with
      players := mapErase l.players c.id
      ready := mapErase l.ready c.id }
    if l1.players.length = 0 then
      { hub := removeLobby h l.id, lobby := l1, events := [] }
    else
      let l2 : Lobby :=
        if l1.hostID = c.id then
          match l1.players with
          | [] => l1
          | p :: _ => { l1 with hostID := p.1 }
        else l1
      { hub := h
        lobby := l2
        events := broadcastUnlocked l2 { type := MsgPlayerLeft, payload := Payload.playerLeftP c.id }
          ++ sendStateToAllUnlocked l2 }

/-- Client.sendEnvelope from client.go: a non-blocking send on the buffered
channel (capacity 64); on a full buffer the message is dropped and the drop
is logged (the returned list is the log lines).  `json.Marshal` of these
envelope types cannot fail, so the marshal-error early return is not taken. -/
def sendEnvelope (c : Client) (env : Envelope) : Client × List String :=
  if c.send.length < 64 then
    ({ c with send := c.send ++ [env] }, [])
  else
    (c, ["client " ++ c.id ++ " send buffer full, dropping"])

/-- Client.sendError as an emitted event. -/
def sendError (c : Client) (msg : String) : SendEvent :=
  (c.id, { type := MsgError, payload := Payload.errorP msg })

/-- The hex digit characters of Go's encoding/hex (lowercase). -/
def hexDigit (n : Nat) : Char :=
  if n < 10 then Char.ofNat (48 + n) else Char.ofNat (87 + n)

/-- The character list hex.EncodeToString builds: two hex digits per byte
(bytes as Nat < 256), high nibble first. -/
def hexChars (bs : List Nat) : List Char :=
  match bs with
  | [] => []
  | b :: t => hexDigit (b / 16) :: hexDigit (b % 16) :: hexChars t

/-- hex.EncodeToString applied to a byte slice. -/
def hexEncodeToString (bs : List Nat) : String :=
  String.mk (hexChars bs)

/-- generateID from main.go: a 16-byte buffer filled by `crypto/rand.Read`
(whose error is ignored; the buffer stays length 16 either way), hex-encoded.
The random bytes are the parameter. -/
def generateID (randomBytes : List Nat) : String :=
  hexEncodeToString randomBytes

/-- Is the character a lowercase hex digit? -/
def isHexChar (ch : Char) : Bool :=
  (decide ('0' ≤ ch) && decide (ch ≤ '9')) || (decide ('a' ≤ ch) && decide (ch ≤ 'f'))

/-- NewClient from client.go: the display name is "Player-" plus the first 6
characters of the id.  In Go `id[:6]` panics when `len(id) < 6`; the panic is
modelled as `none`.  The hub and connection parameters are dropped (external),
and the fresh outbound channel is the empty queue. -/
def NewClient (id : String) : Option Client :=
  if 6 ≤ id.length then
    some { id := id, name := "Player-" ++ id.take 6, send := [], lobby := none }
  else
    none

/-- A parsed JSON value, the input shape of the dispatcher after the wire
bytes have passed `json.Unmarshal` syntactically. -/
inductive JValue where
  | jnull
  | jbool (b : Bool)
  | jnum (n : Int)
  | jstr (s : String)
  | jarr (xs : List JValue)
  | jobj (fields : List (String × JValue))
  deriving Repr

/-- First binding of a JSON object field. -/
def jLookup (fields : List (String × JValue)) (k : String) : Option JValue :=
  match fields with
  | [] => none
  | p :: rest => if p.1 = k then some p.2 else jLookup rest k

/-- Go `json.Unmarshal` of a value into `shared.Envelope`: an object (or
null) succeeds, with a missing `type` left at its zero value `""` and the
`payload` kept as-is; a `type` that is not a string, or a non-object
top-level value, is an unmarshal error (`none`). -/
def decodeEnvelope (v : JValue) : Option (String × JValue) :=
  match v with
  | JValue.jnull => some ("", JValue.jnull)
  | JValue.jobj fields =>
    let payload := (jLookup fields "payload").getD JValue.jnull
    match jLookup fields "type" with
    | none => some ("", payload)
    | some (JValue.jstr s) => some (s, payload)
    | some _ => none
  | _ => none

/-- Go `json.Unmarshal` into `shared.CreateLobbyPayload`: a missing or null
`name` is the zero value `""`; a non-string `name` or a non-object payload is
an error (`none`); unknown fields are ignored. -/
def decodeCreateLobby (v : JValue) : Option String :=
  match v with
  | JValue.jnull => some ""
  | JValue.jobj fields =>
    match jLookup fields "name" with
    | none => some ""
    | some JValue.jnull => some ""
    | some (JValue.jstr s) => some s
    | some _ => none
  | _ => none

/-- Go `json.Unmarshal` into `shared.JoinLobbyPayload` (field `lobby_id`). -/
def decodeJoinLobby (v : JValue) : Option String :=
  match v with
  | JValue.jnull => some ""
  | JValue.jobj fields =>
    match jLookup fields "lobby_id" with
    | none => some ""
    | some JValue.jnull => some ""
    | some (JValue.jstr s) => some s
    | some _ => none
  | _ => none

/-- Go `json.Unmarshal` into `shared.SetReadyPayload` (field `ready`). -/
def decodeSetReady (v : JValue) : Option Bool :=
  match v with
  | JValue.jnull => some false
  | JValue.jobj fields =>
    match jLookup fields "ready" with
    | none => some false
    | some JValue.jnull => some false
    | some (JValue.jbool b) => some b
    | some _ => none
  | _ => none

/-- Modelled from the spec: `Lobby.setPlayerReady` is not implemented in the
repository (the README lists it among the missing Lobby methods; only its
caller `Client.handleSetReady` exists).  Per the spec it is a no-op when the
session id is absent from `ready`, and otherwise sets the flag and broadcasts
the updated room state to all members. -/
def setPlayerReady (l : Lobby) (c : Client) (ready : Bool) : Lobby × List SendEvent :=
  if (mapLookup l.ready c.id).isNone then
    (l, [])
  else
    let l2 : Lobby := { l with ready := mapInsert l.ready c.id ready }
    (l2, sendStateToAllUnlocked l2)

/-- Whether every member's ready flag is true (a missing flag reads as the
map zero value `false`). -/
def allReady (l : Lobby) : Bool :=
  l.players.all (fun p => (mapLookup l.ready p.1).getD false)

/-- Modelled from the spec: `Lobby.tryStart` is not implemented in the
repository (the README lists it among the missing Lobby methods; only its
caller `Client.handleStartGame` exists).  Per the spec it fails with an error
sent only to the requester unless the caller is the host, the state is
`waiting`, and every member's ready flag is true; on success the state moves
to `starting` (the source's `countDown` constant) and game_starting is
broadcast to all members. -/
def tryStart (l : Lobby) (c : Client) : Lobby × List SendEvent :=
  if c.id = l.hostID then
    if l.state = waiting then
      if allReady l then
        let l2 : Lobby := { l with state := countDown }
        (l2, broadcastUnlocked l2 { type := MsgGameStarting, payload := Payload.gameStartingP "" })
      else
        (l, [sendError c "not all players are ready"])
    else
      (l, [sendError c "game already started"])
  else
    (l, [sendError c "only the host can start the game"])

/-- Hub.sendLobbyList as an emitted event. -/
def sendLobbyList (h : Hub) (c : Client) : SendEvent :=
  (c.id,
    { type := MsgLobbyList
      payload := Payload.lobbyListP (h.lobbies.map (fun p => Info p.2)) })

/-- Client.handleLeaveLobby: clear the lobby reference, then remove the
client from that lobby; the hub is kept in step with the lobby object the Go
pointer aliases (updated entry, or already removed by `removePlayer`). -/
def handleLeaveLobby (h : Hub) (c : Client) : Hub × Client × List SendEvent :=
  let c2 : Client := { c with lobby := none }
  match c.lobby with
  | none => (h, c2, [])
  | some lid =>
    match getLobby h lid with
    | none => (h, c2, [])
    | some l =>
      let r := removePlayer h l c
      if r.lobby.players.length = 0 then
        (r.hub, c2, r.events)
      else
        ({ r.hub with lobbies := mapInsert r.hub.lobbies lid r.lobby }, c2, r.events)

/-- Client.handleCreateLobby: reject a payload that fails to decode or has an
empty name; otherwise leave the current lobby, create the new one as host,
set the lobby reference and send the (one-member) lobby state. -/
def handleCreateLobby (h : Hub) (c : Client) (freshId : String) (payload : JValue) :
    Hub × Client × List SendEvent :=
  match decodeCreateLobby payload with
  | none => (h, c, [sendError c "invalid lobby name"])
  | some name =>
    if name = "" then
      (h, c, [sendError c "invalid lobby name"])
    else
      let r := handleLeaveLobby h c
      let cl := createLobby r.1 freshId name r.2.1
      (cl.1, { r.2.1 with lobby := some cl.2.id }, r.2.2 ++ sendStateToAllUnlocked cl.2)

/-- Client.handleJoinLobby: reject a payload that fails to decode or has an
empty id; otherwise leave the current lobby, look the target up, try to join;
on an addPlayer error only that error is sent. -/
def handleJoinLobby (h : Hub) (c : Client) (payload : JValue) :
    Hub × Client × List SendEvent :=
  match decodeJoinLobby payload with
  | none => (h, c, [sendError c "invalid lobby id"])
  | some lid =>
    if lid = "" then
      (h, c, [sendError c "invalid lobby id"])
    else
      let r := handleLeaveLobby h c
      match getLobby r.1 lid with
      | none => (r.1, r.2.1, r.2.2 ++ [sendError c "lobby not found"])
      | some l =>
        match addPlayer l r.2.1 with
        | Except.error msg => (r.1, r.2.1, r.2.2 ++ [sendError c msg])
        | Except.ok res =>
          ({ r.1 with lobbies := mapInsert r.1.lobbies lid res.1 },
            { r.2.1 with lobby := some lid }, r.2.2 ++ res.2)

/-- Client.handleSetReady: the unmarshal error is ignored (the README lists
this under Critical Fixes), so a payload that fails to decode leaves `Ready`
at its zero value `false` and no error is reported; with no current lobby
nothing happens. -/
def handleSetReady (h : Hub) (c : Client) (payload : JValue) :
    Hub × Client × List SendEvent :=
  let ready := (decodeSetReady payload).getD false
  match c.lobby with
  | none => (h, c, [])
  | some lid =>
    match getLobby h lid with
    | none => (h, c, [])
    | some l =>
      let r := setPlayerReady l c ready
      ({ h with lobbies := mapInsert h.lobbies lid r.1 }, c, r.2)

/-- Client.handleStartGame: forward to the current lobby's tryStart, if any. -/
def handleStartGame (h : Hub) (c : Client) : Hub × Client × List SendEvent :=
  match c.lobby with
  | none => (h, c, [])
  | some lid =>
    match getLobby h lid with
    | none => (h, c, [])
    | some l =>
      let r := tryStart l c
      ({ h with lobbies := mapInsert h.lobbies lid r.1 }, c, r.2)

/-- Client.handleMessage: decode the envelope (failure is reported as
"invalid message format"), then dispatch on the message type; an unknown type
is answered with an error envelope. -/
def handleMessage (h : Hub) (c : Client) (freshId : String) (data : JValue) :
    Hub × Client × List SendEvent :=
  match decodeEnvelope data with
  | none => (h, c, [sendError c "invalid message format"])
  | some env =>
    if env.1 = MsgRequestLobbies then (h, c, [sendLobbyList h c])
    else if env.1 = MsgCreateLobby then handleCreateLobby h c freshId env.2
    else if env.1 = MsgJoinLobby then handleJoinLobby h c env.2
    else if env.1 = MsgLeaveLobby then handleLeaveLobby h c
    else if env.1 = MsgSetReady then handleSetReady h c env.2
    else if env.1 = MsgStartGame then handleStartGame h c
    else (h, c, [sendError c ("unknown message type: " ++ env.1)])

/-- A membership operation on one room, for sequences of operations. -/
inductive LobbyOp where
  | add (c : Client)
  | remove (c : Client)

/-- Apply one membership operation to a lobby (a failed addPlayer leaves the
lobby as it was; removePlayer's hub effect is not part of the lobby). -/
def applyOp (l : Lobby) (op : LobbyOp) : Lobby :=
  match op with
  | LobbyOp.add c =>
    match addPlayer l c with
    | Except.error _ => l
    | Except.ok res => res.1
  | LobbyOp.remove c => (removePlayer emptyHub l c).lobby

/-- Apply a sequence of membership operations. -/
def applyOps (l : Lobby) (ops : List LobbyOp) : Lobby :=
  ops.foldl applyOp l

/-- The ready map's keys are a subset of the member map's keys. -/
def readySubset (l : Lobby) : Prop :=
  ∀ k ∈ mapKeys l.ready, k ∈ mapKeys l.players

/-- Concrete client fixture (host in the examples below). -/
def ca : Client := { id := "aaa111", name := "Alice", send := [], lobby := none }

/-- Concrete client fixture (a joiner). -/
def cb : Client := { id := "bbb222", name := "Bob", send := [], lobby := none }

/-- Concrete client fixture (a third member). -/
def cc : Client := { id := "ccc333", name := "Cara", send := [], lobby := none }

theorem mapKeys_cons {α : Type} (p : String × α) (rest : List (String × α)) :
    mapKeys (p :: rest) = p.1 :: mapKeys rest := rfl

theorem mem_keys_insert {α : Type} (m : List (String × α)) (k0 k : String) (v : α) :
    k ∈ mapKeys (mapInsert m k0 v) ↔ k = k0 ∨ k ∈ mapKeys m := by
  induction m with
  | nil => simp [mapInsert, mapKeys]
  | cons p rest ih =>
    simp only [mapInsert]
    split
    case isTrue h =>
      subst h
      simp only [mapKeys_cons, List.mem_cons]
      tauto
    case isFalse h =>
      simp only [mapKeys_cons, List.mem_cons, ih]
      tauto

theorem mem_keys_erase {α : Type} (m : List (String × α)) (k0 k : String) :
    k ∈ mapKeys (mapErase m k0) ↔ k ∈ mapKeys m ∧ k ≠ k0 := by
  induction m with
  | nil => simp [mapErase, mapKeys]
  | cons p rest ih =>
    simp only [mapErase]
    split
    case isTrue h =>
      subst h
      rw [ih, mapKeys_cons, List.mem_cons]
      constructor
      · rintro ⟨hk, hne⟩
        exact ⟨Or.inr hk, hne⟩
      · rintro ⟨rfl | hk, hne⟩
        · exact absurd rfl hne
        · exact ⟨hk, hne⟩
    case isFalse h =>
      rw [mapKeys_cons, List.mem_cons, ih, mapKeys_cons, List.mem_cons]
      constructor
      · rintro (rfl | ⟨hk, hne⟩)
        · exact ⟨Or.inl rfl, h⟩
        · exact ⟨Or.inr hk, hne⟩
      · rintro ⟨rfl | hk, hne⟩
        · exact Or.inl rfl
        · exact Or.inr ⟨hk, hne⟩

theorem mapLookup_erase_self {α : Type} (m : List (String × α)) (k : String) :
    mapLookup (mapErase m k) k = none := by
  induction m with
  | nil => rfl
  | cons p rest ih =>
    simp only [mapErase]
    split
    · exact ih
    case isFalse h =>
      simp only [mapLookup]
      rw [if_neg h]
      exact ih

theorem pair_mem_mapInsert {α : Type} (m : List (String × α)) (k : String) (v : α) :
    (k, v) ∈ mapInsert m k v := by
  induction m with
  | nil => simp [mapInsert]
  | cons p rest ih =>
    simp only [mapInsert]
    split
    · exact List.mem_cons_self _ _
    · exact List.mem_cons_of_mem _ ih

theorem addPlayer_ok_fields (l : Lobby) (c : Client) (res : Lobby × List SendEvent)
    (he : addPlayer l c = Except.ok res) :
    res.1.players = mapInsert l.players c.id c ∧
    res.1.ready = mapInsert l.ready c.id false := by
  unfold addPlayer at he
  split at he
  · exact absurd he (by simp)
  · split at he
    · exact absurd he (by simp)
    · split at he
      · exact absurd he (by simp)
      · cases he
        exact ⟨rfl, rfl⟩

theorem removePlayer_fields (h : Hub) (l : Lobby) (c : Client) :
    ((removePlayer h l c).lobby.players = l.players ∧
      (removePlayer h l c).lobby.ready = l.ready) ∨
    ((removePlayer h l c).lobby.players = mapErase l.players c.id ∧
      (removePlayer h l c).lobby.ready = mapErase l.ready c.id) := by
  simp only [removePlayer]
  split
  · exact Or.inl ⟨rfl, rfl⟩
  · split
    · exact Or.inr ⟨rfl, rfl⟩
    · refine Or.inr ?_
      split
      · split
        · exact ⟨rfl, rfl⟩
        · exact ⟨rfl, rfl⟩
      · exact ⟨rfl, rfl⟩

theorem readySubset_applyOp (l : Lobby) (op : LobbyOp) (h : readySubset l) :
    readySubset (applyOp l op) := by
  cases op with
  | add c =>
    simp only [applyOp]
    cases hA : addPlayer l c with
    | error e => exact h
    | ok res =>
      show readySubset res.1
      obtain ⟨hp, hr⟩ := addPlayer_ok_fields l c res hA
      intro k hk
      rw [hr, mem_keys_insert] at hk
      rw [hp, mem_keys_insert]
      rcases hk with rfl | hk2
      · exact Or.inl rfl
      · exact Or.inr (h k hk2)
  | remove c =>
    simp only [applyOp]
    rcases removePlayer_fields emptyHub l c with ⟨hp, hr⟩ | ⟨hp, hr⟩
    · intro k hk
      rw [hr] at hk
      rw [hp]
      exact h k hk
    · intro k hk
      rw [hr, mem_keys_erase] at hk
      rw [hp, mem_keys_erase]
      exact ⟨h k hk.1, hk.2⟩

theorem readySubset_applyOps (l : Lobby) (ops : List LobbyOp) (h : readySubset l) :
    readySubset (applyOps l ops) := by
  induction ops generalizing l with
  | nil => exact h
  | cons op rest ih => exact ih (applyOp l op) (readySubset_applyOp l op h)

/-- C1: evaluation at the failing input.  The claim says addMember fails with
GameInProgress whenever the room's state is not `waiting`; but the guard in
the code reads the never-set `inGame` flag, not `state`, so on a freshly
created room — whose state is the zero value `""`, not `waiting` — addPlayer
succeeds instead of failing. -/
theorem addPlayer_succeeds_with_state_not_waiting :
    ¬ (NewLobby "l1" "Alpha" ca).state = waiting ∧
    ∃ res, addPlayer (NewLobby "l1" "Alpha" ca) cb = Except.ok res := by
  exact ⟨by decide, ⟨_, rfl⟩⟩

/-- C2: starting from room creation, after any sequence of addMember and
removeMember operations the key set of the ready map is a subset of the key
set of the members map. -/
theorem ready_keys_subset_after_ops (rid rname : String) (host : Client)
    (ops : List LobbyOp) :
    readySubset (applyOps (NewLobby rid rname host) ops) := by
  apply readySubset_applyOps
  intro k hk
  simpa [NewLobby, mapKeys] using hk

/-- Witness for C2's theorem at a concrete instance: after creating a room
and adding `cb`, `cb.id` is a ready key, hence (by the theorem) a member key. -/
theorem ready_keys_subset_after_ops_witness :
    "bbb222" ∈ mapKeys (applyOps (NewLobby "l1" "Alpha" ca) [LobbyOp.add cb]).players :=
  ready_keys_subset_after_ops "l1" "Alpha" ca [LobbyOp.add cb] "bbb222" (by decide)

/-- C4 counterexample: on a successful join the player_joined notice is
broadcast over the member map after the joiner has been inserted, so the
joining session itself receives the member_joined notice, contrary to the
claim that only the other members do. -/
theorem addPlayer_notifies_the_joiner :
    ∃ res, addPlayer (NewLobby "l1" "Alpha" ca) cb = Except.ok res ∧
      (cb.id, playerJoinedEnvelope cb) ∈ res.2 := by
  refine ⟨_, rfl, ?_⟩
  decide

/-- C7: evaluation at the failing input.  createRoom yields a room whose
hostID is the host's id, whose members map holds exactly the host and whose
ready map sets the host to false, and the room is in the registry — but its
state is the Go zero value `""`, not the claimed initial state `waiting`
(NewLobby never assigns `state`). -/
theorem createLobby_initial_lobby :
    (createLobby emptyHub "l1" "Alpha" ca).2.hostID = ca.id ∧
    (createLobby emptyHub "l1" "Alpha" ca).2.players = [(ca.id, ca)] ∧
    (createLobby emptyHub "l1" "Alpha" ca).2.ready = [(ca.id, false)] ∧
    getLobby (createLobby emptyHub "l1" "Alpha" ca).1 "l1"
      = some (createLobby emptyHub "l1" "Alpha" ca).2 ∧
    (createLobby emptyHub "l1" "Alpha" ca).2.state = "" ∧
    ¬ (createLobby emptyHub "l1" "Alpha" ca).2.state = waiting := by
  exact ⟨rfl, rfl, rfl, rfl, rfl, by decide⟩

/-- A set_ready frame whose payload fails to decode (`ready` is a string,
not a boolean). -/
def badSetReadyFrame : JValue :=
  JValue.jobj [("type", JValue.jstr "set_ready"),
    ("payload", JValue.jobj [("ready", JValue.jstr "yes")])]

/-- C8: evaluation at the failing input.  The claim says a payload that fails
to decode for its kind is answered with an error-kind envelope for every
client-to-server kind including set_ready; but handleSetReady ignores the
unmarshal error, so the malformed set_ready frame produces no reply at all
(no error envelope is sent). -/
theorem handleMessage_malformed_setReady_is_silent :
    handleMessage emptyHub ca "freshid1" badSetReadyFrame = (emptyHub, ca, []) := by
  rfl

/-- C9: sendEnvelope never blocks — with free capacity (fewer than 64 queued
messages) the envelope is appended to the queue and nothing is logged; with a
full queue the client is unchanged (message dropped, queue untouched) and the
drop is observable in the log. -/
theorem sendEnvelope_enqueues_or_drops (c : Client) (env : Envelope) :
    (c.send.length < 64 →
      (sendEnvelope c env).1 = { c with send := c.send ++ [env] } ∧
      (sendEnvelope c env).2 = []) ∧
    (¬ c.send.length < 64 →
      (sendEnvelope c env).1 = c ∧
      (sendEnvelope c env).2 = ["client " ++ c.id ++ " send buffer full, dropping"]) := by
  constructor
  · intro hfree
    unfold sendEnvelope
    rw [if_pos hfree]
    exact ⟨rfl, rfl⟩
  · intro hfull
    unfold sendEnvelope
    rw [if_neg hfull]
    exact ⟨rfl, rfl⟩

/-- An envelope fixture for the C9 witness. -/
def envM : Envelope := { type := MsgError, payload := Payload.errorP "m" }

/-- Witness for C9's theorem: a client with an empty queue enqueues. -/
theorem sendEnvelope_enqueues_or_drops_witness :
    (sendEnvelope ca envM).1 = { ca with send := ca.send ++ [envM] } ∧
    (sendEnvelope ca envM).2 = [] :=
  (sendEnvelope_enqueues_or_drops ca envM).1 (by decide)

/-- C4 (amended): a successful addMember inserts the session into members
and ready (ready=false), sends the member_joined notice to every member of
the updated room — including the joining session, since the broadcast runs
after the insertion — and the only room_state (lobby_state) send goes to the
joining session. -/
theorem addPlayer_success_effects (l : Lobby) (c : Client)
    (_hst : l.state = waiting) (hin : l.inGame = false)
    (hlen : l.players.length < maxPlayersPerLobby)
    (hmem : mapLookup l.players c.id = none) :
    ∃ res, addPlayer l c = Except.ok res ∧
      res.1.players = mapInsert l.players c.id c ∧
      res.1.ready = mapInsert l.ready c.id false ∧
      res.2 = broadcastUnlocked res.1 (playerJoinedEnvelope c)
        ++ [sendStateToClientUnlocked res.1 c] ∧
      (c.id, playerJoinedEnvelope c) ∈ res.2 ∧
      (∀ p ∈ res.1.players, (p.2.id, playerJoinedEnvelope c) ∈ res.2) ∧
      (∀ e ∈ res.2, e.2.type = MsgLobbyState → e.1 = c.id) := by
  have h1 : ¬ (l.inGame = true) := by simp [hin]
  have h2 : ¬ (maxPlayersPerLobby ≤ l.players.length) := Nat.not_le.mpr hlen
  have h3 : ¬ ((mapLookup l.players c.id).isSome = true) := by simp [hmem]
  have hA : addPlayer l c = Except.ok
      ({ l with players := mapInsert l.players c.id c,
                ready := mapInsert l.ready c.id false },
        broadcastUnlocked
          { l with players := mapInsert l.players c.id c,
                   ready := mapInsert l.ready c.id false }
          (playerJoinedEnvelope c)
        ++ [sendStateToClientUnlocked
              { l with players := mapInsert l.players c.id c,
                       ready := mapInsert l.ready c.id false } c]) := by
    unfold addPlayer
    rw [if_neg h1, if_neg h2, if_neg h3]
  refine ⟨_, hA, rfl, rfl, rfl, ?_, ?_, ?_⟩
  · apply List.mem_append_left
    exact List.mem_map.mpr ⟨(c.id, c), pair_mem_mapInsert l.players c.id c, rfl⟩
  · intro p hp
    apply List.mem_append_left
    exact List.mem_map.mpr ⟨p, hp, rfl⟩
  · intro e he ht
    rcases List.mem_append.mp he with hb | hs
    · rcases List.mem_map.mp hb with ⟨p, hp, hpe⟩
      rw [← hpe] at ht
      have hne : ("player_joined" : String) ≠ "lobby_state" := by decide
      exact absurd ht hne
    · rw [List.mem_singleton] at hs
      rw [hs]
      rfl

/-- A waiting one-member lobby fixture for the C4 witness. -/
def lW : Lobby :=
  { id := "l1", name := "Alpha", hostID := "aaa111", state := waiting,
    inGame := false, players := [("aaa111", ca)], ready := [("aaa111", false)] }

/-- Witness for C4's amended theorem at a concrete room and joiner. -/
theorem addPlayer_success_effects_witness :
    ∃ res, addPlayer lW cb = Except.ok res ∧
      res.1.players = mapInsert lW.players cb.id cb ∧
      res.1.ready = mapInsert lW.ready cb.id false ∧
      res.2 = broadcastUnlocked res.1 (playerJoinedEnvelope cb)
        ++ [sendStateToClientUnlocked res.1 cb] ∧
      (cb.id, playerJoinedEnvelope cb) ∈ res.2 ∧
      (∀ p ∈ res.1.players, (p.2.id, playerJoinedEnvelope cb) ∈ res.2) ∧
      (∀ e ∈ res.2, e.2.type = MsgLobbyState → e.1 = cb.id) :=
  addPlayer_success_effects lW cb rfl rfl (by decide) rfl

/-- C3: tryStart succeeds iff the caller is the host, the state is waiting
and every member is ready — on success the state becomes `starting` (the
countDown constant) and game_starting is broadcast to every member; each
single violated condition yields only the matching error sent to the
requester alone, with the room unchanged. -/
theorem tryStart_spec (l : Lobby) (c : Client) :
    (c.id = l.hostID ∧ l.state = waiting ∧ allReady l = true →
      (tryStart l c).1 = { l with state := countDown } ∧
      (tryStart l c).2 = l.players.map (fun p =>
        (p.2.id, { type := MsgGameStarting, payload := Payload.gameStartingP "" }))) ∧
    (¬ c.id = l.hostID →
      tryStart l c = (l, [sendError c "only the host can start the game"])) ∧
    (c.id = l.hostID → ¬ l.state = waiting →
      tryStart l c = (l, [sendError c "game already started"])) ∧
    (c.id = l.hostID → l.state = waiting → ¬ allReady l = true →
      tryStart l c = (l, [sendError c "not all players are ready"])) := by
  refine ⟨?_, ?_, ?_, ?_⟩
  · rintro ⟨h1, h2, h3⟩
    unfold tryStart
    rw [if_pos h1, if_pos h2, if_pos h3]
    exact ⟨rfl, rfl⟩
  · intro h1
    unfold tryStart
    rw [if_neg h1]
  · intro h1 h2
    unfold tryStart
    rw [if_pos h1, if_neg h2]
  · intro h1 h2 h3
    unfold tryStart
    rw [if_pos h1, if_pos h2, if_neg h3]

/-- An all-ready waiting lobby fixture for the C3 witness. -/
def lS : Lobby :=
  { id := "l2", name := "Beta", hostID := "aaa111", state := waiting,
    inGame := false, players := [("aaa111", ca)], ready := [("aaa111", true)] }

/-- Witness for C3's theorem: the host starts an all-ready waiting room. -/
theorem tryStart_spec_witness :
    (tryStart lS ca).1 = { lS with state := countDown } ∧
    (tryStart lS ca).2 = lS.players.map (fun p =>
      (p.2.id, { type := MsgGameStarting, payload := Payload.gameStartingP "" })) :=
  (tryStart_spec lS ca).1 ⟨rfl, rfl, by decide⟩

/-- C5: when the members map holds exactly the departing session, removeMember
deletes the room from the hub — a subsequent getLobby of the room's id yields
`none` — and sends no player_left or lobby_state message (no events at all). -/
theorem removePlayer_last_member_removes_lobby (h : Hub) (l : Lobby) (c : Client)
    (hk : mapKeys l.players = [c.id]) :
    getLobby (removePlayer h l c).hub l.id = none ∧
    (removePlayer h l c).events = [] := by
  obtain ⟨v, hv⟩ : ∃ v, l.players = [(c.id, v)] := by
    cases hp : l.players with
    | nil => simp [mapKeys, hp] at hk
    | cons p rest =>
      cases rest with
      | nil =>
        obtain ⟨k, v⟩ := p
        have hpc : k = c.id := by simpa [mapKeys, hp] using hk
        subst hpc
        exact ⟨v, rfl⟩
      | cons q rest2 => simp [mapKeys, hp] at hk
  simp only [removePlayer, hv]
  simp [mapLookup, mapErase, getLobby, removeLobby, mapLookup_erase_self]

/-- A one-member lobby fixture for the C5 witness. -/
def lOne : Lobby :=
  { id := "l3", name := "Gamma", hostID := "aaa111", state := "",
    inGame := false, players := [("aaa111", ca)], ready := [("aaa111", false)] }

/-- Witness for C5's theorem: removing the sole member of a concrete room. -/
theorem removePlayer_last_member_removes_lobby_witness :
    getLobby (removePlayer emptyHub lOne ca).hub lOne.id = none ∧
    (removePlayer emptyHub lOne ca).events = [] :=
  removePlayer_last_member_removes_lobby emptyHub lOne ca rfl

/-- A three-member lobby fixture hosted by `ca`. -/
def lA : Lobby :=
  { id := "l4", name := "Delta", hostID := "aaa111", state := "",
    inGame := false,
    players := [("aaa111", ca), ("bbb222", cb), ("ccc333", cc)],
    ready := [("aaa111", false), ("bbb222", false), ("ccc333", false)] }

/-- The same room with the members map in a different iteration order. -/
def lB : Lobby :=
  { lA with players := [("aaa111", ca), ("ccc333", cc), ("bbb222", cb)] }

/-- C6 counterexample: two rooms whose member maps hold the same id set (the
remaining-member key lists are permutations of each other) pick different new
hosts when the host is removed — the choice follows the map's iteration
order, which Go does not fix, so it is not a function of the member-id set. -/
theorem removePlayer_host_choice_depends_on_iteration_order :
    ¬ (removePlayer emptyHub lA ca).lobby.hostID
        = (removePlayer emptyHub lB ca).lobby.hostID ∧
    (mapKeys (removePlayer emptyHub lA ca).lobby.players).Perm
      (mapKeys (removePlayer emptyHub lB ca).lobby.players) := by
  constructor
  · decide
  · decide

/-- C6 (amended): when the host is removed and members remain, the new host
is the first remaining member in the map's iteration order — in particular
always some remaining member; because Go map iteration order is unspecified,
the same remaining member-id set does not determine the chosen host. -/
theorem removePlayer_new_host_is_member (h : Hub) (l : Lobby) (c : Client)
    (hmem : ¬ mapLookup l.players c.id = none)
    (hne : ¬ mapErase l.players c.id = [])
    (hhost : l.hostID = c.id) :
    (removePlayer h l c).lobby.hostID
      ∈ mapKeys (removePlayer h l c).lobby.players := by
  have h1 : (mapLookup l.players c.id).isNone = false := by
    cases ho : mapLookup l.players c.id with
    | none => exact absurd ho hmem
    | some v => rfl
  cases hE : mapErase l.players c.id with
  | nil => exact absurd hE hne
  | cons p rest =>
    simp [removePlayer, h1, hE, hhost, mapKeys]

theorem hexChars_length (bs : List Nat) : (hexChars bs).length = 2 * bs.length := by
  induction bs with
  | nil => rfl
  | cons b t ih =>
    simp only [hexChars, List.length_cons, ih]
    omega

theorem hexDigit_isHex (n : Nat) (hn : n < 16) : isHexChar (hexDigit n) = true := by
  interval_cases n <;> decide

theorem hexChars_all_hex (bs : List Nat) (hb : ∀ x ∈ bs, x < 256) :
    ∀ ch ∈ hexChars bs, isHexChar ch = true := by
  induction bs with
  | nil =>
    intro ch hch
    cases hch
  | cons b t ih =>
    intro ch hch
    have hb0 : b < 256 := hb b (List.mem_cons_self _ _)
    have hbt : ∀ x ∈ t, x < 256 := fun x hx => hb x (List.mem_cons_of_mem _ hx)
    simp only [hexChars, List.mem_cons] at hch
    rcases hch with rfl | rfl | hch
    · exact hexDigit_isHex _ ((Nat.div_lt_iff_lt_mul (by omega)).mpr (by omega))
    · exact hexDigit_isHex _ (Nat.mod_lt _ (by omega))
    · exact ih hbt ch hch

/-- C10: generateID turns its 16-byte random buffer into a 32-character
string of lowercase hex digits, and NewClient on such an id succeeds with
display name "Player-" plus the id's first 6 characters; NewClient on any id
shorter than 6 characters is the out-of-bounds slice (modelled `none`). -/
theorem generateID_hex_and_NewClient_name (b : List Nat)
    (hb : b.length = 16) (hlt : ∀ x ∈ b, x < 256) :
    (generateID b).length = 32 ∧
    (∀ ch ∈ (generateID b).data, isHexChar ch = true) ∧
    (∃ cl, NewClient (generateID b) = some cl ∧
      cl.name = "Player-" ++ (generateID b).take 6) ∧
    (∀ id : String, id.length < 6 → NewClient id = none) := by
  have hlen : (generateID b).length = 32 := by
    have h0 : (generateID b).length = (hexChars b).length := rfl
    rw [h0, hexChars_length, hb]
  refine ⟨hlen, ?_, ?_, ?_⟩
  · intro ch hch
    exact hexChars_all_hex b hlt ch hch
  · have h6 : 6 ≤ (generateID b).length := by omega
    refine ⟨{ id := generateID b, name := "Player-" ++ (generateID b).take 6,
              send := [], lobby := none }, ?_, rfl⟩
    unfold NewClient
    rw [if_pos h6]
  · intro id hid
    unfold NewClient
    rw [if_neg (by omega)]

/-- Witness for C10's theorem: the all-zero 16-byte buffer. -/
theorem generateID_hex_and_NewClient_name_witness :
    (generateID (List.replicate 16 0)).length = 32 :=
  (generateID_hex_and_NewClient_name (List.replicate 16 0) (by decide) (by decide)).1

/-- Witness for C6's amended theorem: removing the host of a concrete
three-member room leaves a host who is one of the remaining members. -/
theorem removePlayer_new_host_is_member_witness :
    (removePlayer emptyHub lA ca).lobby.hostID
      ∈ mapKeys (removePlayer emptyHub lA ca).lobby.players :=
  removePlayer_new_host_is_member emptyHub lA ca (by decide) (by decide) rfl
